import Mathlib

/-!
Verification of the keystroke pattern/feature analysis engine of the
optimal-keyboard-layout collector backend.

The Python sources are shallowly embedded:
* floats become exact rationals `ℚ` (all constants in the source are
  decimal literals, and the claims under study concern exact values);
* `math.sqrt` / `math.log2` results live in `ℝ`;
* Python dicts (insertion ordered) become association lists updated in
  place, with `defaultdict` semantics appending fresh keys at the end;
* Python truthiness of optional strings / numbers is modelled explicitly
  (`pyTruthyOptStr`, the `t = 0` test in `acceptDur`).
-/

/-- Association-list lookup, mirroring Python `dict.get` /
`dict[k]`-with-default semantics used throughout the source. -/
def alookup {α β : Type} [DecidableEq α] : List (α × β) → α → Option β
  | [], _ => none
  | (k, v) :: rest, a => if k = a then some v else alookup rest a

/-- Python truthiness of an optional string: `None` and `""` are falsy. -/
def pyTruthyOptStr : Option String → Bool
  | none => false
  | some s => s != ""

/-- Python `x or y` for an optional string `x` with string default `y`. -/
def pyOrStr (o : Option String) (d : String) : String :=
  match o with
  | some s => if s != "" then s else d
  | none => d

/-- Python `str.lower()`: lower-case each character. -/
def pyLower (s : String) : String := String.mk (s.data.map Char.toLower)

/-- Python `c in s` for a single character. -/
def pyContainsChar (s : String) (c : Char) : Bool := s.data.contains c

/-- Python `s.split(sep)[0]` for a single-character separator: the prefix
before the first occurrence. -/
def pySplitHead (s : String) (c : Char) : String :=
  String.mk (s.data.takeWhile fun a => a != c)

/-- Python `s.startswith(p)`. -/
def pyStartsWith (s p : String) : Bool :=
  s.data.take p.data.length == p.data

/-- Python `int()` applied to an exact rational: truncation toward zero. -/
def pyInt (q : ℚ) : ℤ := Int.tdiv q.num (q.den : ℤ)

/-- Python `round()` to an integer: round half to even (banker's rounding). -/
def bankersRound (q : ℚ) : ℤ :=
  let f : ℤ := ⌊q⌋
  let r : ℚ := q - (f : ℚ)
  if r < 1/2 then f
  else if 1/2 < r then f + 1
  else if 2 ∣ f then f else f + 1

/-- Python `round(x, 2)`. -/
def pyRound2 (q : ℚ) : ℚ := (bankersRound (q * 100) : ℚ) / 100

/-- Python `round(x, 1)`. -/
def pyRound1 (q : ℚ) : ℚ := (bankersRound (q * 10) : ℚ) / 10

/-- Render a natural number with `prec` fractional digits taken from its
low decimal digits (helper for fixed-point formatting). -/
def fmtNatFixed (n : ℕ) (prec : ℕ) : String :=
  if prec = 0 then toString n
  else
    let frac := toString (n % 10 ^ prec)
    let pad := String.mk (List.replicate (prec - frac.length) '0')
    toString (n / 10 ^ prec) ++ "." ++ pad ++ frac

/-- Python `f"{q:.precf}"` fixed-point formatting of an exact rational. -/
def pyFormatFixed (q : ℚ) (prec : ℕ) : String :=
  let scaled := bankersRound (q * ((10 : ℚ) ^ prec))
  if scaled < 0 then "-" ++ fmtNatFixed scaled.natAbs prec
  else fmtNatFixed scaled.natAbs prec

/-- Python `min` over a nonempty list (0 for the never-used empty case). -/
def listMin : List ℚ → ℚ
  | [] => 0
  | x :: xs => xs.foldl min x

/-- Python `max` over a nonempty list (0 for the never-used empty case). -/
def listMax : List ℚ → ℚ
  | [] => 0
  | x :: xs => xs.foldl max x

/-- Insert into a `≤`-sorted rational list, after any equal elements. -/
def insertQ (x : ℚ) : List ℚ → List ℚ
  | [] => [x]
  | y :: ys => if y ≤ x then y :: insertQ x ys else x :: y :: ys

/-- Stable ascending sort of rationals (Python `sorted`). -/
def sortQ (l : List ℚ) : List ℚ := l.foldl (fun acc x => insertQ x acc) []

/-- `statistics.median`: middle element of the sorted list, or the mean of
the two middle elements for even length. -/
def pyMedian (l : List ℚ) : ℚ :=
  let s := sortQ l
  let n := s.length
  if n % 2 = 1 then s.getD (n / 2) 0
  else (s.getD (n / 2 - 1) 0 + s.getD (n / 2) 0) / 2

/-! ## Keyboard geometry model (`keyboard_layout.py`) -/

/-- `KEY_SIZE_CM = 1.9`. -/
def KEY_SIZE_CM : ℚ := 1.9

/-- `KEY_POSITIONS`: (row_offset, column_offset) per key. -/
def KEY_POSITIONS : List (String × (ℚ × ℚ)) :=
  [("q", (-1, -4.5)), ("w", (-1, -3.0)), ("e", (-1, -1.5)), ("r", (-1, 0)), ("t", (-1, 1.5)),
   ("y", (-1, 3.0)), ("u", (-1, 4.5)), ("i", (-1, 6.0)), ("o", (-1, 7.5)), ("p", (-1, 9.0)),
   ("a", (0, -4.5)), ("s", (0, -3.0)), ("d", (0, -1.5)), ("f", (0, 0)), ("g", (0, 1.5)),
   ("h", (0, 3.0)), ("j", (0, 4.5)), ("k", (0, 6.0)), ("l", (0, 7.5)), (";", (0, 9.0)),
   ("z", (1, -4.5)), ("x", (1, -3.0)), ("c", (1, -1.5)), ("v", (1, 0)), ("b", (1, 1.5)),
   ("n", (1, 3.0)), ("m", (1, 4.5)), (",", (1, 6.0)), (".", (1, 7.5)), ("/", (1, 9.0)),
   (" ", (2, 0))]

/-- `FINGER_ASSIGNMENTS`: user-defined finger table. -/
def FINGER_ASSIGNMENTS : List (String × String) :=
  [("q", "left_ring"), ("a", "left_ring"), ("z", "left_ring"),
   ("w", "left_middle"), ("s", "left_middle"), ("x", "left_index"),
   ("e", "left_middle"), ("d", "left_index"), ("c", "left_index"),
   ("r", "left_index"), ("t", "left_index"), ("f", "left_index"), ("g", "left_index"),
   ("v", "left_index"), ("b", "right_index"),
   ("y", "right_index"), ("u", "right_index"), ("h", "right_index"), ("j", "right_index"),
   ("n", "right_index"), ("m", "right_index"),
   ("i", "right_middle"), ("k", "right_index"),
   ("o", "right_middle"), ("l", "right_middle"),
   ("p", "right_ring"),
   (".", "right_ring"),
   (",", "right_middle"),
   (";", "right_pinky"), ("/", "right_pinky"),
   (" ", "right_thumb")]

/-- `HAND_ASSIGNMENTS`, derived from the finger table. -/
def HAND_ASSIGNMENTS : List (String × String) :=
  FINGER_ASSIGNMENTS.map fun kv =>
    (kv.1, if pyStartsWith kv.2 "left" then "left" else "right")

/-- `get_key_position`: case-insensitive lookup, `(0, 0)` fallback. -/
def get_key_position (key : String) : ℚ × ℚ :=
  (alookup KEY_POSITIONS (pyLower key)).getD (0, 0)

/-- `get_finger`: case-insensitive lookup, `'unknown'` fallback. -/
def get_finger (key : String) : String :=
  (alookup FINGER_ASSIGNMENTS (pyLower key)).getD "unknown"

/-- `get_hand`: case-insensitive lookup, `'unknown'` fallback. -/
def get_hand (key : String) : String :=
  (alookup HAND_ASSIGNMENTS (pyLower key)).getD "unknown"

/-- `euclidean_distance`: both axes scaled by `KEY_SIZE_CM`. -/
noncomputable def euclidean_distance (key1 key2 : String) : ℝ :=
  let pos1 := get_key_position key1
  let pos2 := get_key_position key2
  let row_diff : ℝ := ((pos1.1 : ℝ) - (pos2.1 : ℝ)) * (KEY_SIZE_CM : ℝ)
  let col_diff : ℝ := ((pos1.2 : ℝ) - (pos2.2 : ℝ)) * (KEY_SIZE_CM : ℝ)
  Real.sqrt (row_diff ^ 2 + col_diff ^ 2)

/-- `row_difference = abs(int(pos1[0] - pos2[0]))`. -/
def row_difference (key1 key2 : String) : ℤ :=
  |pyInt ((get_key_position key1).1 - (get_key_position key2).1)|

/-- `is_inward_roll`: toward-thumb motion for same-hand transitions. -/
def is_inward_roll (key1 key2 finger1 finger2 : String) : Bool :=
  let pos1 := get_key_position key1
  let pos2 := get_key_position key2
  let hand1 := if pyContainsChar finger1 '_' then pySplitHead finger1 '_' else finger1
  let hand2 := if pyContainsChar finger2 '_' then pySplitHead finger2 '_' else finger2
  if hand1 != hand2 then false
  else if hand1 = "left" then decide (pos1.2 < pos2.2)
  else decide (pos2.2 < pos1.2)

/-- `fitts_law_cost = log2(1 + distance / key_width)`. -/
noncomputable def fitts_law_cost (distance key_width : ℝ) : ℝ :=
  Real.logb 2 (1 + distance / key_width)

/-! ## Feature extractor (`features.py` / `services/feature_service.py`) -/

/-- The transition feature record produced by `extract_transition_features`. -/
structure FeatureRec where
  finger_from : String
  finger_to : String
  same_hand : ℕ
  same_finger : ℕ
  euclidean_distance : ℝ
  row_difference : ℤ
  is_inward : ℕ
  fitts_law_cost : ℝ

/-- `extract_transition_features`: `None` finger/hand inputs fall back to
the layout defaults; inward roll only evaluated for same-hand pairs. -/
noncomputable def extract_transition_features (key_from key_to : String)
    (fingerFromIn fingerToIn handFromIn handToIn : Option String) : FeatureRec :=
  let finger_from := fingerFromIn.getD (get_finger key_from)
  let finger_to := fingerToIn.getD (get_finger key_to)
  let hand_from := handFromIn.getD (get_hand key_from)
  let hand_to := handToIn.getD (get_hand key_to)
  let dist := euclidean_distance key_from key_to
  let row_diff := row_difference key_from key_to
  let same_hand : ℕ := if hand_from = hand_to then 1 else 0
  let same_finger : ℕ := if finger_from = finger_to then 1 else 0
  let inward : ℕ :=
    if same_hand = 1 then
      (if is_inward_roll key_from key_to finger_from finger_to then 1 else 0)
    else 0
  let fitts := fitts_law_cost dist (KEY_SIZE_CM : ℝ)
  ⟨finger_from, finger_to, same_hand, same_finger, dist, row_diff, inward, fitts⟩

/-- A keystroke dict as consumed by `compute_session_features`. -/
structure FKeystroke where
  key : String
  prev_key : Option String
  finger : Option String
  hand : Option String

instance : Inhabited FKeystroke := ⟨⟨"", none, none, none⟩⟩

/-- `compute_session_features`: positionally aligned feature list; the
guard is Python `if i == 0 or not ks.get('prev_key')`. -/
noncomputable def compute_session_features (ks : List FKeystroke) :
    List (Option FeatureRec) :=
  (List.range ks.length).map fun i =>
    let k := ks.getD i default
    if i == 0 || !pyTruthyOptStr k.prev_key then none
    else
      let p := ks.getD (i - 1) default
      some (extract_transition_features p.key k.key p.finger k.finger p.hand k.hand)

/-! ## Pattern analyzer (`services/pattern_service.py`) -/

/-- `MAX_KEYSTROKE_DURATION_MS = 5000` (`domain/constants.py`). -/
def MAX_KEYSTROKE_DURATION_MS : ℚ := 5000

/-- `MIN_PATTERN_SAMPLES = 1` (`domain/constants.py`). -/
def MIN_PATTERN_SAMPLES : ℕ := 1

/-- One `defaultdict` value of `analyze_patterns`. -/
structure PStat where
  count : ℕ
  total_time : ℚ
  times : List ℚ
deriving DecidableEq

/-- The fresh `defaultdict` entry `{'count': 0, 'total_time': 0, 'times': []}`. -/
def PStat.init : PStat := ⟨0, 0, []⟩

/-- One accepted sample: increment count, accumulate and append duration. -/
def PStat.add (s : PStat) (d : ℚ) : PStat :=
  ⟨s.count + 1, s.total_time + d, s.times ++ [d]⟩

/-- Insertion-ordered pattern-statistics dict. -/
abbrev StatsMap : Type := List (String × PStat)

/-- `defaultdict` update: modify in place, or append a fresh entry. -/
def updStat : StatsMap → String → ℚ → StatsMap
  | [], k, d => [(k, PStat.init.add d)]
  | (k', v) :: rest, k, d =>
      if k' = k then (k', v.add d) :: rest else (k', v) :: updStat rest k d

/-- Read a pattern's statistics (the `defaultdict` default if absent). -/
def getStat (m : StatsMap) (k : String) : PStat :=
  (alookup m k).getD PStat.init

/-- The duration-acceptance logic shared verbatim by the digraph and
transition branches of `analyze_patterns` (source lines 120–125 and
129–134): Python `if prev_timestamp:` is truthiness, so a previous
timestamp of `0` is rejected; then `0 < duration < 5000`. -/
def acceptDur (m : StatsMap) (name : String) (prevT : Option ℚ) (ts : ℚ) : StatsMap :=
  match prevT with
  | none => m
  | some t =>
    if t = 0 then m
    else
      let dur := ts - t
      if 0 < dur ∧ dur < MAX_KEYSTROKE_DURATION_MS then updStat m name dur else m

/-- One fetched keystroke row `(key_char, prev_key, timestamp, session_id)`. -/
structure KsRow where
  key : String
  prev_key : Option String
  timestamp : ℚ
  session_id : ℕ
deriving DecidableEq

instance : Inhabited KsRow := ⟨⟨"", none, 0, 0⟩⟩

/-- The trigraph branch of `analyze_patterns` (source lines 137–151):
only the same-session and nonempty-key-char guards, no `prev_key` check. -/
def trigraphStep (tg : StatsMap) (p2 p1 : Option KsRow) (row : KsRow) : StatsMap :=
  match p2, p1 with
  | some pp, some p =>
    if pp.session_id = row.session_id ∧ p.session_id = row.session_id then
      if pp.key != "" && p.key != "" && row.key != "" then
        let dur := row.timestamp - pp.timestamp
        if 0 < dur ∧ dur < MAX_KEYSTROKE_DURATION_MS then
          updStat tg (pp.key ++ p.key ++ row.key) dur
        else tg
      else tg
    else tg
  | _, _ => tg

/-- Accumulator state of the `analyze_patterns` walk. -/
structure AnState where
  dg : StatsMap
  tg : StatsMap
  tr : StatsMap
  prevBySession : List (ℕ × ℚ)

/-- Dict assignment `prev_ks_by_session[session_id] = timestamp`. -/
def setSessTs : List (ℕ × ℚ) → ℕ → ℚ → List (ℕ × ℚ)
  | [], sid, ts => [(sid, ts)]
  | (s, t) :: rest, sid, ts =>
      if s = sid then (s, ts) :: rest else (s, t) :: setSessTs rest sid ts

/-- The main loop of `analyze_patterns`, carrying the two global
look-behind rows used by the trigraph branch. -/
def analyzeLoop : List KsRow → Option KsRow → Option KsRow → AnState → AnState
  | [], _, _, st => st
  | row :: rest, p2, p1, st =>
    let prevT := alookup st.prevBySession row.session_id
    let dg' :=
      if pyTruthyOptStr row.prev_key && row.key != "" then
        acceptDur st.dg ((row.prev_key.getD "") ++ row.key) prevT row.timestamp
      else st.dg
    let tr' :=
      if pyTruthyOptStr row.prev_key && row.key != "" then
        acceptDur st.tr ((row.prev_key.getD "") ++ "->" ++ row.key) prevT row.timestamp
      else st.tr
    let tg' := trigraphStep st.tg p2 p1 row
    analyzeLoop rest p1 (some row)
      ⟨dg', tg', tr', setSessTs st.prevBySession row.session_id row.timestamp⟩

/-- The outlier-filtering result tuple of `filter_outliers_mad`
(`threshold_high` is `none` for Python's `float('inf')`). -/
structure MadRes where
  filtered : List ℚ
  excluded : List ℚ
  med : ℚ
  mad : ℚ
  threshold_low : ℚ
  threshold_high : Option ℚ
deriving DecidableEq

/-- `compute_mad`: median absolute deviation. -/
def compute_mad (values : List ℚ) : ℚ :=
  if values.isEmpty then 0
  else
    let med := pyMedian values
    pyMedian (values.map fun v => |v - med|)

/-- `filter_outliers_mad(times, threshold)`. -/
def filter_outliers_mad (times : List ℚ) (threshold : ℚ) : MadRes :=
  if times.length < 3 then
    ⟨times, [], if times.isEmpty then 0 else pyMedian times, 0, 0, none⟩
  else
    let med := pyMedian times
    let mad := compute_mad times
    if mad = 0 then ⟨times, [], med, 0, med, some med⟩
    else
      let tl := med - threshold * mad
      let th := med + threshold * mad
      ⟨times.filter fun t => decide (tl ≤ t ∧ t ≤ th),
       times.filter fun t => decide (t < tl ∨ th < t),
       med, mad, tl, some th⟩

/-- One summary entry built by `PatternService._process_stats`. -/
structure PatEntry where
  pattern : String
  count : ℕ
  avg_time : ℚ
  raw_avg_time : ℚ
  min_time : ℚ
  max_time : ℚ
  median_time : ℚ
  mad : ℚ
  filtered_count : ℕ
  excluded_count : ℕ
deriving DecidableEq

/-- The per-pattern body of `_process_stats`. -/
def mkPatEntry (pat : String) (data : PStat) : PatEntry :=
  let times := data.times
  let r :=
    if 3 < times.length then filter_outliers_mad times 3
    else ⟨times, [], if times.isEmpty then 0 else pyMedian times, 0, 0, none⟩
  let filtered_avg :=
    if !r.filtered.isEmpty then r.filtered.sum / (r.filtered.length : ℚ)
    else times.sum / (times.length : ℚ)
  let raw_avg := data.total_time / (data.count : ℚ)
  ⟨pat, data.count, pyRound2 filtered_avg, pyRound2 raw_avg,
   pyRound2 (listMin times), pyRound2 (listMax times),
   pyRound2 r.med, pyRound2 r.mad, r.filtered.length, r.excluded.length⟩

/-- Stable insertion into a list sorted ascending by `avg_time`. -/
def insertByAvg (x : PatEntry) : List PatEntry → List PatEntry
  | [] => [x]
  | y :: ys => if y.avg_time ≤ x.avg_time then y :: insertByAvg x ys else x :: y :: ys

/-- Python's stable `sorted(results, key=avg_time)`. -/
def sortByAvg (l : List PatEntry) : List PatEntry :=
  l.foldl (fun acc x => insertByAvg x acc) []

/-- `_process_stats`: keep patterns with `count >= min_count`, sort by
filtered average. -/
def processStats (m : StatsMap) (min_count : ℕ) : List PatEntry :=
  sortByAvg (m.filterMap fun kv =>
    if min_count ≤ kv.2.count then some (mkPatEntry kv.1 kv.2) else none)

/-- The dict returned by `PatternService.analyze_patterns`. -/
structure PatternResult where
  digraphs : List PatEntry
  trigraphs : List PatEntry
  fastest_transitions : List PatEntry
  slowest_transitions : List PatEntry
deriving DecidableEq

/-- `PatternService.analyze_patterns` over the fetched keystroke rows
(already ordered by `(session_id, id)`), with no mode filter, so
`min_count = MIN_PATTERN_SAMPLES`. -/
def analyze_patterns (keystrokes : List KsRow) : PatternResult :=
  if keystrokes.isEmpty then ⟨[], [], [], []⟩
  else
    let st := analyzeLoop keystrokes none none ⟨[], [], [], []⟩
    let dgs := processStats st.dg MIN_PATTERN_SAMPLES
    let tgs := processStats st.tg MIN_PATTERN_SAMPLES
    let trs := processStats st.tr MIN_PATTERN_SAMPLES
    ⟨dgs.take 20, tgs.take 20, trs.take 20, (trs.drop (trs.length - 20)).reverse⟩

/-! ## Coverage tracker (`services/coverage_service.py`) -/

/-- The eight tracked fingers (thumbs excluded). -/
def FINGERS : List String :=
  ["left_pinky", "left_ring", "left_middle", "left_index",
   "right_index", "right_middle", "right_ring", "right_pinky"]

/-- `MIN_SAMPLES_PER_PAIR = 5`. -/
def MIN_SAMPLES_PER_PAIR : ℕ := 5

/-- `TARGET_SAMPLES_PER_PAIR = 8`. -/
def TARGET_SAMPLES_PER_PAIR : ℕ := 8

/-- One fetched coverage row
`(key_char, prev_key, timestamp, finger, session_id)`. -/
structure CovRow where
  key_char : String
  prev_key : Option String
  timestamp : ℚ
  finger : Option String
  session_id : ℕ
deriving DecidableEq

/-- One `pair_counts` value. -/
structure PairStat where
  count : ℕ
  times : List ℚ
deriving DecidableEq

/-- Insertion-ordered finger-pair dict. -/
abbrev PairMap : Type := List ((String × String) × PairStat)

/-- `defaultdict` update for `pair_counts`. -/
def updPair : PairMap → (String × String) → ℚ → PairMap
  | [], k, d => [(k, ⟨1, [d]⟩)]
  | (k', v) :: rest, k, d =>
      if k' = k then (k', ⟨v.count + 1, v.times ++ [d]⟩) :: rest
      else (k', v) :: updPair rest k d

/-- A pair's sample count (`pair_counts.get(pair_key, {'count': 0})`). -/
def getPairCount (pc : PairMap) (p : String × String) : ℕ :=
  ((alookup pc p).getD ⟨0, []⟩).count

/-- One iteration of the `CoverageService.get_coverage` keystroke walk
(source lines 72–94): the row's own `finger` annotation resolves the
destination (`row['finger'] or get_finger(key)`), while the source
finger is always `get_finger(prev_key)`. -/
def covStep (pc : PairMap) (prevKs : List (ℕ × ℚ)) (row : CovRow) :
    PairMap × List (ℕ × ℚ) :=
  let finger := pyOrStr row.finger (get_finger row.key_char)
  let prev_finger : Option String :=
    match row.prev_key with
    | some p => if p != "" then some (get_finger p) else none
    | none => none
  let pc' :=
    if pyTruthyOptStr row.prev_key && pyTruthyOptStr prev_finger && finger != "" then
      if (prev_finger.getD "") ∈ FINGERS ∧ finger ∈ FINGERS then
        match alookup prevKs row.session_id with
        | some t =>
          let dur := row.timestamp - t
          if 0 < dur ∧ dur < MAX_KEYSTROKE_DURATION_MS then
            updPair pc (prev_finger.getD "", finger) dur
          else pc
        | none => pc
      else pc
    else pc
  (pc', setSessTs prevKs row.session_id row.timestamp)

/-- The full `pair_counts` accumulation of `get_coverage`. -/
def covPairCounts (rows : List CovRow) : PairMap :=
  (rows.foldl (fun st row => covStep st.1 st.2 row) ([], [])).1

/-- One cell of the 8×8 coverage matrix. -/
structure CovCell where
  from_finger : String
  to_finger : String
  count : ℕ
  avg_time : Option ℚ
  status : String
deriving DecidableEq

/-- `CoverageService._build_coverage_matrix`. -/
def buildCoverageMatrix (pc : PairMap) : List (List CovCell) :=
  FINGERS.map fun fromF => FINGERS.map fun toF =>
    let data := (alookup pc (fromF, toF)).getD ⟨0, []⟩
    let avg :=
      if !data.times.isEmpty then
        some (pyRound1 (data.times.sum / (data.times.length : ℚ)))
      else none
    let status :=
      if TARGET_SAMPLES_PER_PAIR ≤ data.count then "good"
      else if MIN_SAMPLES_PER_PAIR ≤ data.count then "adequate"
      else if 0 < data.count then "low"
      else "missing"
    ⟨fromF, toF, data.count, avg, status⟩

/-- One under-sampled pair reported by `_identify_gaps`. -/
structure CovGap where
  from_finger : String
  to_finger : String
  current : ℕ
  needed : ℕ
  priority : String
deriving DecidableEq

/-- Sort key `(0 if priority == 'high' else 1, current)`. -/
def gapKey (g : CovGap) : ℕ × ℕ :=
  (if g.priority = "high" then 0 else 1, g.current)

/-- Lexicographic comparison of gap sort keys. -/
def gapKeyLe (a b : CovGap) : Prop :=
  (gapKey a).1 < (gapKey b).1 ∨
    ((gapKey a).1 = (gapKey b).1 ∧ (gapKey a).2 ≤ (gapKey b).2)

instance (a b : CovGap) : Decidable (gapKeyLe a b) := by
  unfold gapKeyLe; infer_instance

/-- Stable insertion into a gap list sorted by `gapKey`. -/
def insertGap (x : CovGap) : List CovGap → List CovGap
  | [] => [x]
  | y :: ys => if gapKeyLe y x then y :: insertGap x ys else x :: y :: ys

/-- Python's stable `gaps.sort(key=...)`. -/
def sortGaps (l : List CovGap) : List CovGap :=
  l.foldl (fun acc x => insertGap x acc) []

/-- `CoverageService._identify_gaps`. -/
def identifyGaps (pc : PairMap) : List CovGap :=
  sortGaps (FINGERS.flatMap fun fromF => FINGERS.filterMap fun toF =>
    let c := getPairCount pc (fromF, toF)
    if c < MIN_SAMPLES_PER_PAIR then
      some ⟨fromF, toF, c, MIN_SAMPLES_PER_PAIR - c,
            if c = 0 then "high" else "medium"⟩
    else none)

/-! ## Histogram construction (`_create_histogram_bins`,
`KeystrokeRepository._create_distribution`) -/

/-- One bin dict of `PatternService._create_histogram_bins`
(`bin_start`/`bin_end` are absent in the single-sample fallback). -/
structure HBin where
  label : String
  count : ℕ
  in_range : Bool
  bin_start : Option ℚ
  bin_end : Option ℚ
deriving DecidableEq

/-- `PatternService._create_histogram_bins` (`thresh_high = none` models
`float('inf')`). -/
def createHistogramBins (sorted_times : List ℚ) (thresh_low : ℚ)
    (thresh_high : Option ℚ) (num_bins : ℕ) : List HBin :=
  if sorted_times.isEmpty then []
  else if sorted_times.length = 1 then
    [⟨pyFormatFixed (sorted_times.headD 0) 0 ++ "ms", 1, true, none, none⟩]
  else
    let min_t := sorted_times.headD 0
    let max_t := sorted_times.getLastD 0
    let range_t := max_t - min_t
    let nb := if range_t < 10 then min num_bins (max 2 (pyInt range_t).toNat)
              else num_bins
    let bin_size := if 0 < range_t then range_t / (nb : ℚ) else 1
    (List.range nb).map fun i =>
      let bs := min_t + (i : ℚ) * bin_size
      let be := min_t + ((i : ℚ) + 1) * bin_size
      let cnt :=
        if i = nb - 1 then
          (sorted_times.filter fun t => decide (bs ≤ t ∧ t ≤ be)).length
        else
          (sorted_times.filter fun t => decide (bs ≤ t ∧ t < be)).length
      let mid := (bs + be) / 2
      let inr : Bool :=
        match thresh_high with
        | some th => decide (thresh_low ≤ mid ∧ mid ≤ th)
        | none => true
      let lbl :=
        if 10 ≤ bin_size then pyFormatFixed bs 0 ++ "-" ++ pyFormatFixed be 0
        else if 1 ≤ bin_size then pyFormatFixed bs 0 ++ "-" ++ pyFormatFixed be 0
        else pyFormatFixed bs 1 ++ "-" ++ pyFormatFixed be 1
      ⟨lbl, cnt, inr, some (pyRound1 bs), some (pyRound1 be)⟩

/-- The distribution dict of `KeystrokeRepository._create_distribution`. -/
structure Distribution where
  labels : List String
  values : List ℕ
deriving DecidableEq

/-- `KeystrokeRepository._create_distribution`. -/
def createDistribution (times : List ℚ) : Option Distribution :=
  if times.isEmpty then none
  else
    let min_time := listMin times
    let max_time := listMax times
    if max_time = min_time then
      some ⟨[pyFormatFixed min_time 1 ++ "ms"], [times.length]⟩
    else
      let bin_size := (max_time - min_time) / 10
      let labels := (List.range 10).map fun i =>
        let bs := min_time + (i : ℚ) * bin_size
        let be := min_time + ((i : ℚ) + 1) * bin_size
        if bin_size < 1/10 then
          pyFormatFixed bs 2 ++ "-" ++ pyFormatFixed be 2 ++ "ms"
        else if bin_size < 1 then
          pyFormatFixed bs 1 ++ "-" ++ pyFormatFixed be 1 ++ "ms"
        else pyFormatFixed bs 0 ++ "-" ++ pyFormatFixed be 0 ++ "ms"
      let values := times.foldl (fun acc t =>
        let idx := (min (pyInt ((t - min_time) / bin_size)) 9).toNat
        acc.set idx (acc.getD idx 0 + 1)) (List.replicate 10 0)
      some ⟨labels, values⟩

/-! ## Keystroke deletion (`KeystrokeRepository.delete`) -/

/-- One persisted keystroke row. -/
structure DbKs where
  id : ℕ
  session_id : ℕ
  key_char : String
  timestamp : ℚ
  prev_key : Option String
deriving DecidableEq

/-- The repository's successor query: `WHERE session_id = ? AND
timestamp > ? ORDER BY timestamp ASC LIMIT 1` (first-encountered row
among those of minimal timestamp, i.e. rowid order on ties). -/
def findNextByTimestamp (tbl : List DbKs) (sid : ℕ) (ts : ℚ) : Option DbKs :=
  tbl.foldl (fun best r =>
    if r.session_id = sid ∧ ts < r.timestamp then
      match best with
      | none => some r
      | some b => if r.timestamp < b.timestamp then some r else some b
    else best) none

/-- `KeystrokeRepository.delete`: look up the keystroke, find the next
one in the session by strictly greater timestamp, delete, and null the
found successor's `prev_key`. Returns the new table and the success flag. -/
def deleteKeystroke (tbl : List DbKs) (kid : ℕ) : List DbKs × Bool :=
  match tbl.find? fun r => r.id == kid with
  | none => (tbl, false)
  | some del =>
    let next := findNextByTimestamp tbl del.session_id del.timestamp
    let tbl1 := tbl.filter fun r => r.id != kid
    let tbl2 :=
      match next with
      | some n => tbl1.map fun r =>
          if r.id = n.id then ⟨r.id, r.session_id, r.key_char, r.timestamp, none⟩
          else r
      | none => tbl1
    (tbl2, true)

/-! ## Supporting lemmas -/

theorem length_insertQ (x : ℚ) (l : List ℚ) :
    (insertQ x l).length = l.length + 1 := by
  induction l with
  | nil => rfl
  | cons y ys ih =>
    simp only [insertQ]
    by_cases h : y ≤ x <;> simp [h, ih]

theorem mem_insertQ (a x : ℚ) (l : List ℚ) :
    a ∈ insertQ x l ↔ a = x ∨ a ∈ l := by
  induction l with
  | nil => simp [insertQ]
  | cons y ys ih =>
    simp only [insertQ]
    by_cases h : y ≤ x
    · simp [h, ih]
      tauto
    · simp [h]

theorem sortQ_aux_length (l acc : List ℚ) :
    (l.foldl (fun a x => insertQ x a) acc).length = acc.length + l.length := by
  induction l generalizing acc with
  | nil => simp
  | cons y ys ih =>
    simp only [List.foldl_cons, List.length_cons]
    rw [ih, length_insertQ]
    omega

theorem sortQ_length (l : List ℚ) : (sortQ l).length = l.length := by
  simpa using sortQ_aux_length l []

theorem sortQ_aux_mem (l acc : List ℚ) (a : ℚ) :
    a ∈ l.foldl (fun a x => insertQ x a) acc ↔ a ∈ acc ∨ a ∈ l := by
  induction l generalizing acc with
  | nil => simp
  | cons y ys ih =>
    simp only [List.foldl_cons]
    rw [ih, mem_insertQ]
    simp
    tauto

theorem sortQ_all_eq (l : List ℚ) (v : ℚ) (h : ∀ x ∈ l, x = v) :
    ∀ x ∈ sortQ l, x = v := by
  intro x hx
  have := (sortQ_aux_mem l [] x).mp hx
  simp at this
  exact h x this

theorem getD_all_eq (l : List ℚ) (v : ℚ) (i : ℕ) (hi : i < l.length)
    (h : ∀ x ∈ l, x = v) : l.getD i 0 = v := by
  rw [List.getD_eq_getElem _ _ hi]
  exact h _ (List.getElem_mem hi)

theorem pyMedian_all_eq (l : List ℚ) (v : ℚ) (hne : l ≠ [])
    (h : ∀ x ∈ l, x = v) : pyMedian l = v := by
  have hlen : (sortQ l).length = l.length := sortQ_length l
  have hpos : 0 < l.length := List.length_pos.mpr hne
  have hall := sortQ_all_eq l v h
  unfold pyMedian
  by_cases hodd : (sortQ l).length % 2 = 1
  · rw [if_pos hodd]
    exact getD_all_eq _ v _ (by omega) hall
  · rw [if_neg hodd]
    rw [getD_all_eq _ v _ (by omega) hall, getD_all_eq _ v _ (by omega) hall]
    ring

theorem compute_mad_all_eq (l : List ℚ) (v : ℚ) (hne : l ≠ [])
    (h : ∀ x ∈ l, x = v) : compute_mad l = 0 := by
  unfold compute_mad
  rw [if_neg (by simpa using hne)]
  have hmed : pyMedian l = v := pyMedian_all_eq l v hne h
  have hall : ∀ x ∈ l.map (fun t => |t - pyMedian l|), x = 0 := by
    intro x hx
    simp only [List.mem_map] at hx
    obtain ⟨a, ha, rfl⟩ := hx
    rw [hmed, h a ha]
    simp
  have hne2 : l.map (fun t => |t - pyMedian l|) ≠ [] := by
    simpa using hne
  exact pyMedian_all_eq _ 0 hne2 hall

theorem foldl_min_all_eq (xs : List ℚ) (x v : ℚ) (hx : x = v)
    (hall : ∀ a ∈ xs, a = v) : xs.foldl min x = v := by
  induction xs generalizing x with
  | nil => simpa using hx
  | cons y ys ih =>
    simp only [List.foldl_cons]
    refine ih (min x y) ?_ (fun a ha => hall a (by simp [ha]))
    rw [hx, hall y (by simp)]
    simp

theorem foldl_max_all_eq (xs : List ℚ) (x v : ℚ) (hx : x = v)
    (hall : ∀ a ∈ xs, a = v) : xs.foldl max x = v := by
  induction xs generalizing x with
  | nil => simpa using hx
  | cons y ys ih =>
    simp only [List.foldl_cons]
    refine ih (max x y) ?_ (fun a ha => hall a (by simp [ha]))
    rw [hx, hall y (by simp)]
    simp

theorem listMin_all_eq (l : List ℚ) (v : ℚ) (hne : l ≠ [])
    (h : ∀ x ∈ l, x = v) : listMin l = v := by
  match l, hne with
  | x :: xs, _ =>
    simp only [listMin]
    exact foldl_min_all_eq xs x v (h x (by simp)) (fun a ha => h a (by simp [ha]))

theorem listMax_all_eq (l : List ℚ) (v : ℚ) (hne : l ≠ [])
    (h : ∀ x ∈ l, x = v) : listMax l = v := by
  match l, hne with
  | x :: xs, _ =>
    simp only [listMax]
    exact foldl_max_all_eq xs x v (h x (by simp)) (fun a ha => h a (by simp [ha]))

theorem filter_all_eq (l : List ℚ) (v : ℚ) (p : ℚ → Bool)
    (h : ∀ x ∈ l, x = v) : l.filter p = if p v then l else [] := by
  induction l with
  | nil => simp
  | cons y ys ih =>
    have hy : y = v := h y (by simp)
    subst hy
    rw [List.filter_cons]
    rw [ih (fun a ha => h a (by simp [ha]))]
    by_cases hp : p y = true <;> simp [hp]

theorem alookup_map_value {α β γ : Type} [DecidableEq α] (g : β → γ)
    (l : List (α × β)) (a : α) :
    alookup (l.map fun kv => (kv.1, g kv.2)) a = (alookup l a).map g := by
  induction l with
  | nil => rfl
  | cons kv rest ih =>
    simp only [List.map_cons, alookup]
    by_cases h : kv.1 = a <;> simp [h, ih]

theorem alookup_mem_values {α β : Type} [DecidableEq α] (l : List (α × β))
    (a : α) (v : β) (h : alookup l a = some v) : v ∈ l.map Prod.snd := by
  induction l with
  | nil => simp [alookup] at h
  | cons kv rest ih =>
    simp only [alookup] at h
    by_cases hk : kv.1 = a
    · rw [if_pos hk] at h
      simp [← Option.some_inj.mp h]
    · rw [if_neg hk] at h
      simp [ih h]

theorem get_finger_ne_empty (k : String) : get_finger k ≠ "" := by
  unfold get_finger
  cases h : alookup FINGER_ASSIGNMENTS (pyLower k) with
  | none => simp
  | some v =>
    simp only [Option.getD_some]
    have hv := alookup_mem_values _ _ _ h
    have hvals : ∀ s ∈ FINGER_ASSIGNMENTS.map Prod.snd, s ≠ "" := by decide
    exact hvals v hv

theorem getStat_updStat (m : StatsMap) (k : String) (d : ℚ) :
    getStat (updStat m k d) k = (getStat m k).add d := by
  induction m with
  | nil => simp [updStat, getStat, alookup]
  | cons kv rest ih =>
    by_cases h : kv.1 = k
    · obtain ⟨k', v⟩ := kv
      simp only at h
      subst h
      simp [updStat, getStat, alookup]
    · obtain ⟨k', v⟩ := kv
      simp only at h
      simp only [updStat, getStat, alookup, if_neg h]
      exact ih

theorem getPairCount_updPair (pc : PairMap) (p : String × String) (d : ℚ) :
    getPairCount (updPair pc p d) p = getPairCount pc p + 1 := by
  induction pc with
  | nil => simp [updPair, getPairCount, alookup]
  | cons kv rest ih =>
    by_cases h : kv.1 = p
    · obtain ⟨k', v⟩ := kv
      simp only at h
      subst h
      simp [updPair, getPairCount, alookup]
    · obtain ⟨k', v⟩ := kv
      simp only at h
      simp only [updPair, getPairCount, alookup, if_neg h]
      exact ih

/-! ## Claims -/

/-- Claim C1, counterexample: on the spec's concrete scenario
`[('t', null, t=0), ('h', 't', t=100), ('e', 'h', t=250)]` the analyzer
does NOT return a digraph `"th"`: the previous timestamp `0` is falsy in
Python (`if prev_timestamp:`), so only `"he"` is counted. -/
theorem c1_counterexample :
    ((analyze_patterns [⟨"t", none, 0, 1⟩, ⟨"h", some "t", 100, 1⟩, ⟨"e", some "h", 250, 1⟩]).digraphs.map
      fun e => (e.pattern, e.count, e.avg_time)) = [("he", 1, 150)] := by
  norm_num [analyze_patterns, analyzeLoop, trigraphStep, acceptDur, updStat, setSessTs,
    alookup, pyTruthyOptStr, processStats, mkPatEntry, filter_outliers_mad, compute_mad,
    pyMedian, sortQ, insertQ, listMin, listMax, pyRound2, bankersRound, sortByAvg, insertByAvg,
    getStat, PStat.init, PStat.add, MIN_PATTERN_SAMPLES, MAX_KEYSTROKE_DURATION_MS,
    List.foldl, List.filterMap]
  all_goals decide

/-- Claim C1, amended: with a nonzero (truthy) starting timestamp the
scenario holds — keystrokes `[('t', null, 1), ('h', 't', 101),
('e', 'h', 251)]` yield exactly the digraphs `"th"` (100 ms) and `"he"`
(150 ms) and the trigraph `"the"` (250 ms); and in general a
digraph/transition at a keystroke with non-null `prev_key` is counted if
and only if a previous timestamp exists for its session, that timestamp
is nonzero (truthy), and `0 < duration < 5000`. -/
theorem c1_digraph_scenario_and_rule :
    (((analyze_patterns [⟨"t", none, 1, 1⟩, ⟨"h", some "t", 101, 1⟩, ⟨"e", some "h", 251, 1⟩]).digraphs.map
        fun e => (e.pattern, e.count, e.avg_time)) = [("th", 1, 100), ("he", 1, 150)] ∧
      ((analyze_patterns [⟨"t", none, 1, 1⟩, ⟨"h", some "t", 101, 1⟩, ⟨"e", some "h", 251, 1⟩]).trigraphs.map
        fun e => (e.pattern, e.count, e.avg_time)) = [("the", 1, 250)]) ∧
    ∀ (m : StatsMap) (name : String) (prevT : Option ℚ) (ts : ℚ),
      (getStat (acceptDur m name prevT ts) name).count = (getStat m name).count + 1 ↔
        ∃ t, prevT = some t ∧ t ≠ 0 ∧ 0 < ts - t ∧ ts - t < 5000 := by
  refine ⟨⟨?_, ?_⟩, ?_⟩
  · norm_num [analyze_patterns, analyzeLoop, trigraphStep, acceptDur, updStat, setSessTs,
      alookup, pyTruthyOptStr, processStats, mkPatEntry, filter_outliers_mad, compute_mad,
      pyMedian, sortQ, insertQ, listMin, listMax, pyRound2, bankersRound, sortByAvg, insertByAvg,
      getStat, PStat.init, PStat.add, MIN_PATTERN_SAMPLES, MAX_KEYSTROKE_DURATION_MS,
      List.foldl, List.filterMap]
    all_goals decide
  · norm_num [analyze_patterns, analyzeLoop, trigraphStep, acceptDur, updStat, setSessTs,
      alookup, pyTruthyOptStr, processStats, mkPatEntry, filter_outliers_mad, compute_mad,
      pyMedian, sortQ, insertQ, listMin, listMax, pyRound2, bankersRound, sortByAvg, insertByAvg,
      getStat, PStat.init, PStat.add, MIN_PATTERN_SAMPLES, MAX_KEYSTROKE_DURATION_MS,
      List.foldl, List.filterMap]
    all_goals decide
  · intro m name prevT ts
    cases prevT with
    | none => simp [acceptDur]
    | some t =>
      by_cases ht : t = 0
      · subst ht
        simp [acceptDur]
      · by_cases hd : 0 < ts - t ∧ ts - t < 5000
        · have hstep : acceptDur m name (some t) ts = updStat m name (ts - t) := by
            simp [acceptDur, ht, MAX_KEYSTROKE_DURATION_MS, hd.1, hd.2]
          rw [hstep, getStat_updStat]
          constructor
          · intro _
            exact ⟨t, rfl, ht, hd.1, hd.2⟩
          · intro _
            rfl
        · have hstep : acceptDur m name (some t) ts = m := by
            simp only [acceptDur, if_neg ht, MAX_KEYSTROKE_DURATION_MS]
            rw [if_neg hd]
          rw [hstep]
          simp only [Nat.self_eq_add_right, one_ne_zero, false_iff]
          rintro ⟨t', ht', hne, h1, h2⟩
          rw [Option.some_inj] at ht'
          subst ht'
          exact hd ⟨h1, h2⟩

/-- Claim C2, evaluation at a failing input: in the session
`[('a', null, 1000), ('b', null, 2000), ('c', 'b', 2100)]` the middle
keystroke has `prev_key = null` (a breakpoint), yet the trigraph branch —
which checks only session equality — still counts the trigraph `"abc"`
spanning it, with duration 1100 ms. -/
theorem c2_trigraph_spans_breakpoint :
    (([⟨"a", none, 1000, 1⟩, ⟨"b", none, 2000, 1⟩, ⟨"c", some "b", 2100, 1⟩] : List KsRow).getD 1 default).prev_key
        = none ∧
    ((analyze_patterns [⟨"a", none, 1000, 1⟩, ⟨"b", none, 2000, 1⟩, ⟨"c", some "b", 2100, 1⟩]).trigraphs.map
      fun e => (e.pattern, e.count, e.avg_time)) = [("abc", 1, 1100)] := by
  refine ⟨rfl, ?_⟩
  norm_num [analyze_patterns, analyzeLoop, trigraphStep, acceptDur, updStat, setSessTs,
    alookup, pyTruthyOptStr, processStats, mkPatEntry, filter_outliers_mad, compute_mad,
    pyMedian, sortQ, insertQ, listMin, listMax, pyRound2, bankersRound, sortByAvg, insertByAvg,
    getStat, PStat.init, PStat.add, MIN_PATTERN_SAMPLES, MAX_KEYSTROKE_DURATION_MS,
    List.foldl, List.filterMap]
  all_goals decide

/-- Claim C3, counterexample: for the session
`[('f', null, t=1000, finger=null), ('j', 'f', t=1100, finger='left_pinky')]`
the claim predicts the pair `(left_pinky, right_index)` (annotation as
fromFinger, geometry default as toFinger), but the code counts
`(left_index, left_pinky)`: the row's annotation resolves the
destination finger, and the source finger is the geometry default. -/
theorem c3_counterexample :
    getPairCount (covPairCounts [⟨"f", none, 1000, none, 1⟩, ⟨"j", some "f", 1100, some "left_pinky", 1⟩])
      ("left_pinky", "right_index") = 0 ∧
    getPairCount (covPairCounts [⟨"f", none, 1000, none, 1⟩, ⟨"j", some "f", 1100, some "left_pinky", 1⟩])
      ("left_index", "left_pinky") = 1 := by
  have hgf : get_finger "f" = "left_index" := by decide
  constructor <;>
  · norm_num [covPairCounts, covStep, getPairCount, updPair, alookup, setSessTs, pyOrStr,
      pyTruthyOptStr, FINGERS, MAX_KEYSTROKE_DURATION_MS, List.foldl, hgf]
    decide

/-- Claim C3, amended: for each adjacent pair the coverage walk resolves
`fromFinger = geometryDefault(prev_key)` and `toFinger = annotation ??
geometryDefault(key)`; pairs outside the eight tracked fingers are
ignored, and the pair's count is incremented (and duration accumulated)
exactly when a previous timestamp exists for the session and the elapsed
time lies strictly between 0 and 5000 ms. -/
theorem c3_cov_pair_resolution :
    ∀ (pc : PairMap) (prevKs : List (ℕ × ℚ)) (row : CovRow),
      (covStep pc prevKs row).1 =
        (match row.prev_key, alookup prevKs row.session_id with
         | some p, some t =>
           if p ≠ "" ∧ get_finger p ∈ FINGERS ∧
              pyOrStr row.finger (get_finger row.key_char) ∈ FINGERS ∧
              0 < row.timestamp - t ∧ row.timestamp - t < 5000
           then updPair pc (get_finger p, pyOrStr row.finger (get_finger row.key_char))
                  (row.timestamp - t)
           else pc
         | _, _ => pc) ∧
      (covStep pc prevKs row).2 = setSessTs prevKs row.session_id row.timestamp := by
  intro pc prevKs row
  obtain ⟨key, pk, ts, fin, sid⟩ := row
  refine ⟨?_, rfl⟩
  simp only [covStep]
  cases pk with
  | none =>
    cases alookup prevKs sid <;> simp [pyTruthyOptStr]
  | some p =>
    by_cases hp : p = ""
    · subst hp
      cases alookup prevKs sid <;> simp [pyTruthyOptStr]
    · have hbp : (p != "") = true := by simpa using hp
      have hgfp : (get_finger p != "") = true := by simpa using get_finger_ne_empty p
      simp only [hbp, pyTruthyOptStr, if_true, Option.getD_some, hgfp, Bool.true_and]
      cases halk : alookup prevKs sid with
      | none =>
        simp only []
        split_ifs <;> rfl
      | some t =>
        simp only [MAX_KEYSTROKE_DURATION_MS]
        by_cases hFe : pyOrStr fin (get_finger key) = ""
        · have hne : pyOrStr fin (get_finger key) ∉ FINGERS := by
            rw [hFe]; decide
          have hbF : (pyOrStr fin (get_finger key) != "") = false := by simpa using hFe
          simp only [hbF, Bool.and_false, Bool.false_eq_true, if_false]
          rw [if_neg fun hc => hne hc.2.2.1]
        · have hbF : (pyOrStr fin (get_finger key) != "") = true := by simpa using hFe
          simp only [hbF, Bool.and_true, if_true]
          by_cases hmem : get_finger p ∈ FINGERS ∧ pyOrStr fin (get_finger key) ∈ FINGERS
          · by_cases hrange : 0 < ts - t ∧ ts - t < 5000
            · rw [if_pos hmem, if_pos hrange,
                if_pos ⟨hp, hmem.1, hmem.2, hrange.1, hrange.2⟩]
            · rw [if_pos hmem, if_neg hrange,
                if_neg fun hc => hrange ⟨hc.2.2.2.1, hc.2.2.2.2⟩]
          · rw [if_neg hmem, if_neg fun hc => hmem ⟨hc.2.1, hc.2.2.1⟩]

/-- Claim C4, evaluation at the failing input: with session-1 keystrokes
`(id=1, 'a', t=100, prev=null)` and `(id=2, 'b', t=100, prev='a')`,
deleting keystroke 1 leaves keystroke 2 with `prev_key = 'a'`: the
successor query demands a strictly greater timestamp, so the ordinal
successor (id 2, equal timestamp) is not found and keeps its
`prev_key`, contrary to the claimed by-ordinal-position nulling. -/
theorem c4_delete_tie_keeps_prev_key :
    deleteKeystroke [⟨1, 1, "a", 100, none⟩, ⟨2, 1, "b", 100, some "a"⟩] 1 =
      ([⟨2, 1, "b", 100, some "a"⟩], true) := by decide

theorem computeSF_getD (ks : List FKeystroke) (i : ℕ) (hi : i < ks.length) :
    (compute_session_features ks).getD i none =
      (if i == 0 || !pyTruthyOptStr ((ks.getD i default).prev_key) then none
       else some (extract_transition_features (ks.getD (i-1) default).key (ks.getD i default).key
         (ks.getD (i-1) default).finger (ks.getD i default).finger
         (ks.getD (i-1) default).hand (ks.getD i default).hand)) := by
  unfold compute_session_features
  rw [List.getD_eq_getElem _ _ (by simpa using hi)]
  rw [List.getElem_map, List.getElem_range]

theorem pyFalsyGuard (i : ℕ) (o : Option String) :
    (i == 0 || !pyTruthyOptStr o) = true ↔ (i = 0 ∨ o = none ∨ o = some "") := by
  cases o with
  | none => simp [pyTruthyOptStr]
  | some s => simp [pyTruthyOptStr]

/-- Claim C5, amended: `compute_session_features` is positionally
aligned — output length equals input length, `result[0]` is `None` for
nonempty input, and `result[i]` is `None` exactly when `i == 0` or
`ks[i].prev_key` is null **or the empty string** (Python
`not ks.get('prev_key')` treats both as falsy); otherwise `result[i]` is
the transition feature of `ks[i-1] -> ks[i]` computed from each
keystroke's own recorded finger/hand. -/
theorem c5_feature_alignment :
    ∀ ks : List FKeystroke,
      (compute_session_features ks).length = ks.length ∧
      (ks ≠ [] → (compute_session_features ks).getD 0 none = none) ∧
      ∀ i, i < ks.length →
        ((compute_session_features ks).getD i none = none ↔
          (i = 0 ∨ (ks.getD i default).prev_key = none ∨ (ks.getD i default).prev_key = some "")) ∧
        (¬(i = 0 ∨ (ks.getD i default).prev_key = none ∨ (ks.getD i default).prev_key = some "") →
          (compute_session_features ks).getD i none =
            some (extract_transition_features (ks.getD (i-1) default).key (ks.getD i default).key
              (ks.getD (i-1) default).finger (ks.getD i default).finger
              (ks.getD (i-1) default).hand (ks.getD i default).hand)) := by
  intro ks
  refine ⟨by simp [compute_session_features], ?_, ?_⟩
  · intro hne
    have h0 : 0 < ks.length := List.length_pos.mpr hne
    rw [computeSF_getD ks 0 h0]
    simp
  · intro i hi
    have hg := pyFalsyGuard i ((ks.getD i default).prev_key)
    constructor
    · rw [computeSF_getD ks i hi]
      by_cases hb : (i == 0 || !pyTruthyOptStr ((ks.getD i default).prev_key)) = true
      · rw [if_pos hb]
        exact iff_of_true rfl (hg.mp hb)
      · rw [if_neg hb]
        refine iff_of_false (by simp) ?_
        intro hP
        exact hb (hg.mpr hP)
    · intro hP
      have hb : ¬((i == 0 || !pyTruthyOptStr ((ks.getD i default).prev_key)) = true) :=
        fun hb => hP (hg.mp hb)
      rw [computeSF_getD ks i hi, if_neg hb]

/-- Witness for C5: at the session `[('f', null), ('j', 'f')]`, index 1
gets the transition feature computed from the recorded values. -/
theorem c5_feature_alignment_witness :
    (compute_session_features [⟨"f", none, none, none⟩, ⟨"j", some "f", none, none⟩]).getD 1 none =
      some (extract_transition_features "f" "j" none none none none) := by
  have h := (c5_feature_alignment [⟨"f", none, none, none⟩, ⟨"j", some "f", none, none⟩]).2.2 1
    (by decide)
  exact h.2 (by decide)

/-- Claim C5, counterexample: a keystroke whose `prev_key` is the empty
string (not null) still yields `None`, because Python
`not ks.get('prev_key')` is a truthiness test. -/
theorem c5_counterexample :
    compute_session_features [⟨"a", none, none, none⟩, ⟨"b", some "", none, none⟩] =
      [none, none] := rfl

/-- Claim C6: for any sample set of more than 3 all-equal values, MAD
filtering returns MAD 0, the filtered set equal to the full set with
nothing excluded, and both thresholds equal to the median. -/
theorem c6_mad_all_equal (times : List ℚ) (v threshold : ℚ)
    (hlen : 3 < times.length) (hall : ∀ x ∈ times, x = v) :
    filter_outliers_mad times threshold = ⟨times, [], v, 0, v, some v⟩ := by
  have hne : times ≠ [] := by rintro rfl; simp at hlen
  have hmed : pyMedian times = v := pyMedian_all_eq times v hne hall
  have hmad : compute_mad times = 0 := compute_mad_all_eq times v hne hall
  unfold filter_outliers_mad
  rw [if_neg (by omega), hmed, hmad]
  simp

/-- Witness for C6 at the concrete sample set `[5, 5, 5, 5]`. -/
theorem c6_mad_all_equal_witness :
    3 < ([5, 5, 5, 5] : List ℚ).length ∧
    filter_outliers_mad [5, 5, 5, 5] 3 = ⟨[5, 5, 5, 5], [], 5, 0, 5, some 5⟩ :=
  ⟨by decide, c6_mad_all_equal [5, 5, 5, 5] 5 3 (by decide) (by decide)⟩

theorem headD_all_eq (l : List ℚ) (v : ℚ) (hne : l ≠ [])
    (hall : ∀ x ∈ l, x = v) : l.headD 0 = v := by
  cases l with
  | nil => exact absurd rfl hne
  | cons x xs => simpa using hall x (by simp)

theorem getLastD_all_eq (l : List ℚ) (v : ℚ) (hne : l ≠ [])
    (hall : ∀ x ∈ l, x = v) : l.getLastD 0 = v := by
  cases l with
  | nil => exact absurd rfl hne
  | cons x xs =>
    simp only [List.getLastD]
    exact hall _ (List.getLast_mem _)

/-- Claim C7, counterexample: for two identical samples `[100, 100]`,
`_create_histogram_bins` does not fall back to a single bin — the
zero-range path clamps the bin count to 2 (with bin width 1), yielding
two bins with both samples in the first. -/
theorem c7_counterexample :
    (createHistogramBins [100, 100] 0 none 8).map (fun b => (b.label, b.count)) =
      [("100-101", 2), ("101-102", 0)] := by
  norm_num [createHistogramBins, pyInt, pyFormatFixed, fmtNatFixed, bankersRound, pyRound1,
    List.range, List.range.loop]
  all_goals decide

/-- Claim C7, amended: with all-identical accepted durations no bin-width
division by zero occurs — `_create_distribution` falls back to a single
bin holding all samples, while `_create_histogram_bins` falls back to
bin width 1, giving a single bin only for one sample and, for two or
more, two unit-width bins with every sample in the first and none in
the second. -/
theorem c7_identical_samples_histogram (times : List ℚ) (v : ℚ)
    (hne : times ≠ []) (hall : ∀ x ∈ times, x = v) :
    createDistribution times = some ⟨[pyFormatFixed v 1 ++ "ms"], [times.length]⟩ ∧
    (createHistogramBins times 0 none 8).map HBin.count =
      (if times.length = 1 then [1] else [times.length, 0]) := by
  have hmin : listMin times = v := listMin_all_eq times v hne hall
  have hmax : listMax times = v := listMax_all_eq times v hne hall
  have hhd : times.headD 0 = v := headD_all_eq times v hne hall
  have hlast : times.getLastD 0 = v := getLastD_all_eq times v hne hall
  have hempty : ¬(times.isEmpty = true) := by simpa using hne
  constructor
  · simp only [createDistribution]
    rw [if_neg hempty, hmin, hmax, if_pos rfl]
  · simp only [createHistogramBins]
    rw [if_neg hempty]
    by_cases h1 : times.length = 1
    · rw [if_pos h1, if_pos h1]
      rfl
    · rw [if_neg h1, if_neg h1, hhd, hlast, sub_self]
      rw [if_pos (by norm_num : (0 : ℚ) < 10)]
      rw [if_neg (lt_irrefl (0 : ℚ))]
      have hpy : (pyInt 0).toNat = 0 := by decide
      rw [hpy]
      norm_num
      have hr : ((List.range 2).flatMap fun a : ℕ => ([(a : ℚ)] : List ℚ)) = [0, 1] := by
        norm_num [List.range_succ]
      rw [hr]
      simp only [List.map_cons, List.map_nil, Function.comp_apply]
      rw [filter_all_eq times v _ hall, filter_all_eq times v _ hall]
      norm_num
      intro a ha hle
      rw [hall a ha] at hle ⊢
      linarith

/-- Witness for C7 at the two-sample set `[7, 7]`. -/
theorem c7_identical_samples_histogram_witness :
    ([7, 7] : List ℚ) ≠ [] ∧
    createDistribution [7, 7] = some ⟨[pyFormatFixed 7 1 ++ "ms"], [2]⟩ ∧
    (createHistogramBins [7, 7] 0 none 8).map HBin.count = [2, 0] := by
  have h := c7_identical_samples_histogram [7, 7] 7 (by decide) (by decide)
  exact ⟨by decide, h.1, h.2⟩

/-- Claim C8: a coverage query matching zero keystrokes yields an 8×8
matrix whose cells all have count 0 and status `'missing'`, together
with 64 gaps all of priority `'high'`; pattern analysis over zero
keystrokes returns empty result lists. -/
theorem c8_empty_input :
    (buildCoverageMatrix (covPairCounts [])).length = 8 ∧
    ((buildCoverageMatrix (covPairCounts [])).all fun row =>
      row.length == 8 && row.all fun c => c.count == 0 && c.status == "missing") = true ∧
    (identifyGaps (covPairCounts [])).length = 64 ∧
    ((identifyGaps (covPairCounts [])).all fun g => g.priority == "high") = true ∧
    analyze_patterns [] = ⟨[], [], [], []⟩ :=
  ⟨by decide, by decide, by decide, by decide, rfl⟩

/-- Claim C9: `distance('f','j')` equals exactly `8.55 = 1.9 * 4.5` cm,
and in general the distance is the Euclidean distance between the two
key positions with both axes scaled by the fixed 1.9 cm pitch. -/
theorem c9_distance_scaled_euclidean :
    euclidean_distance "f" "j" = 8.55 ∧
    (8.55 : ℝ) = 1.9 * 4.5 ∧
    ∀ k1 k2 : String, euclidean_distance k1 k2 =
      (KEY_SIZE_CM : ℝ) * Real.sqrt
        ((((get_key_position k1).1 : ℝ) - ((get_key_position k2).1 : ℝ)) ^ 2 +
         (((get_key_position k1).2 : ℝ) - ((get_key_position k2).2 : ℝ)) ^ 2) := by
  have hgen : ∀ k1 k2 : String, euclidean_distance k1 k2 =
      (KEY_SIZE_CM : ℝ) * Real.sqrt
        ((((get_key_position k1).1 : ℝ) - ((get_key_position k2).1 : ℝ)) ^ 2 +
         (((get_key_position k1).2 : ℝ) - ((get_key_position k2).2 : ℝ)) ^ 2) := by
    intro k1 k2
    simp only [euclidean_distance]
    have hK : (0 : ℝ) ≤ ((KEY_SIZE_CM : ℚ) : ℝ) := by norm_num [KEY_SIZE_CM]
    rw [show ((((get_key_position k1).1 : ℝ) - ((get_key_position k2).1 : ℝ)) * ((KEY_SIZE_CM : ℚ) : ℝ)) ^ 2 +
          ((((get_key_position k1).2 : ℝ) - ((get_key_position k2).2 : ℝ)) * ((KEY_SIZE_CM : ℚ) : ℝ)) ^ 2 =
        ((KEY_SIZE_CM : ℚ) : ℝ) ^ 2 *
          ((((get_key_position k1).1 : ℝ) - ((get_key_position k2).1 : ℝ)) ^ 2 +
           (((get_key_position k1).2 : ℝ) - ((get_key_position k2).2 : ℝ)) ^ 2) from by ring]
    rw [Real.sqrt_mul (sq_nonneg _), Real.sqrt_sq hK]
  refine ⟨?_, by norm_num, hgen⟩
  rw [hgen]
  have hplj : pyLower "j" = "j" := by decide
  have hplf : pyLower "f" = "f" := by decide
  have hf : get_key_position "f" = (0, 0) := by
    simp [get_key_position, KEY_POSITIONS, alookup, hplf]
  have hj : get_key_position "j" = (0, 4.5) := by
    simp [get_key_position, KEY_POSITIONS, alookup, hplj]
  rw [hf, hj]
  push_cast
  norm_num [KEY_SIZE_CM]
  rw [show (81 : ℝ) = 9 ^ 2 by norm_num, Real.sqrt_sq (by norm_num : (0:ℝ) ≤ 9),
    show (4 : ℝ) = 2 ^ 2 by norm_num, Real.sqrt_sq (by norm_num : (0:ℝ) ≤ 2)]
  norm_num

/-- Claim C10: for two keys absent from both layout tables and no
finger/hand inputs, the transition features are `same_hand = 1` and
`same_finger = 1` (both resolve to the sentinel `'unknown'`),
`euclidean_distance = 0`, `row_difference = 0`, `fitts_law_cost = 0`,
and `is_inward = 0` (both positions fall back to `(0, 0)`). -/
theorem c10_unknown_keys (k1 k2 : String)
    (hp1 : alookup KEY_POSITIONS (pyLower k1) = none)
    (hp2 : alookup KEY_POSITIONS (pyLower k2) = none)
    (hf1 : alookup FINGER_ASSIGNMENTS (pyLower k1) = none)
    (hf2 : alookup FINGER_ASSIGNMENTS (pyLower k2) = none) :
    extract_transition_features k1 k2 none none none none =
      ⟨"unknown", "unknown", 1, 1, 0, 0, 0, 0⟩ := by
  have hpos1 : get_key_position k1 = (0, 0) := by
    unfold get_key_position; rw [hp1]; rfl
  have hpos2 : get_key_position k2 = (0, 0) := by
    unfold get_key_position; rw [hp2]; rfl
  have hfin1 : get_finger k1 = "unknown" := by
    unfold get_finger; rw [hf1]; rfl
  have hfin2 : get_finger k2 = "unknown" := by
    unfold get_finger; rw [hf2]; rfl
  have hh1 : get_hand k1 = "unknown" := by
    unfold get_hand HAND_ASSIGNMENTS
    rw [alookup_map_value (fun f => if pyStartsWith f "left" = true then "left" else "right")
      FINGER_ASSIGNMENTS (pyLower k1), hf1]
    rfl
  have hh2 : get_hand k2 = "unknown" := by
    unfold get_hand HAND_ASSIGNMENTS
    rw [alookup_map_value (fun f => if pyStartsWith f "left" = true then "left" else "right")
      FINGER_ASSIGNMENTS (pyLower k2), hf2]
    rfl
  have hdist : euclidean_distance k1 k2 = 0 := by
    simp only [euclidean_distance]
    rw [hpos1, hpos2]
    norm_num
  have hrow : row_difference k1 k2 = 0 := by
    unfold row_difference
    rw [hpos1, hpos2]
    rw [show ((0, 0) : ℚ × ℚ).1 - ((0, 0) : ℚ × ℚ).1 = 0 by norm_num]
    decide
  have hroll : is_inward_roll k1 k2 "unknown" "unknown" = false := by
    simp only [is_inward_roll]
    rw [hpos1, hpos2]
    decide
  have hfitts : fitts_law_cost 0 ((KEY_SIZE_CM : ℚ) : ℝ) = 0 := by
    simp only [fitts_law_cost]
    rw [zero_div, add_zero]
    exact Real.logb_one
  simp [extract_transition_features, hfin1, hfin2, hh1, hh2, hdist, hrow, hroll, hfitts]

/-- Witness for C10 at the table-absent keys `"1"` and `"2"`. -/
theorem c10_unknown_keys_witness :
    alookup KEY_POSITIONS (pyLower "1") = none ∧
    alookup KEY_POSITIONS (pyLower "2") = none ∧
    alookup FINGER_ASSIGNMENTS (pyLower "1") = none ∧
    alookup FINGER_ASSIGNMENTS (pyLower "2") = none ∧
    extract_transition_features "1" "2" none none none none =
      ⟨"unknown", "unknown", 1, 1, 0, 0, 0, 0⟩ :=
  ⟨by decide, by decide, by decide, by decide,
   c10_unknown_keys "1" "2" (by decide) (by decide) (by decide) (by decide)⟩
